import Mathlib

/-!
Verification of the MCP (Model Context Protocol) client contract documented
by `experimental_createMCPClient`.  The repository ships only the reference
documentation of the client (transport configuration, `tools()`, `close()`,
error taxonomy); the implementation itself is not part of the sources, so
the operational definitions below are reconstructed from the specification
text, faithful to its words.
-/

/-- Modelled from the spec: the stderr handling mode of the stdio transport
(`IOType | Stream | number`): silently discarded, inherited by the parent,
piped/overlapped, redirected to a provided stream sink, or a file descriptor. -/
inductive StderrHandling where
  | inherit
  | ignore
  | piped
  | overlapped
  | streamSink
  | fileDescriptor (fd : Nat)
deriving DecidableEq, Repr

/-- Modelled from the spec: `McpStdioServerConfig` — the stdio transport
variant: command, optional argument list, optional environment mapping,
optional working directory, optional stderr handling mode. -/
structure McpStdioServerConfig where
  command : String
  args : Option (List String) := none
  env : Option (List (String × String)) := none
  cwd : Option String := none
  stderr : Option StderrHandling := none
deriving DecidableEq, Repr

/-- Modelled from the spec: `McpSSEServerConfig` — the SSE transport variant:
the server URL. -/
structure McpSSEServerConfig where
  url : String
deriving DecidableEq, Repr

/-- Modelled from the spec: `TransportConfig`, a tagged union — exactly one
variant is active and the tag determines which fields are meaningful. -/
inductive TransportConfig where
  | stdio (config : McpStdioServerConfig)
  | sse (config : McpSSEServerConfig)
deriving DecidableEq, Repr

/-- Modelled from the spec: `MCPClientConfig` — transport, optional client
name (defaults to a fixed identifier), optional uncaught-error callback
(modelled by its presence). -/
structure ClientConfig where
  transport : TransportConfig
  name : Option String := none
  hasUncaughtErrorHandler : Bool := false
deriving DecidableEq, Repr

/-- Modelled from the spec: the effective client name, defaulting to
"ai-sdk-mcp-client" when not supplied. -/
def ClientConfig.effectiveName (c : ClientConfig) : String :=
  c.name.getD "ai-sdk-mcp-client"

/-- Modelled from the spec: the effective stderr handling of a stdio
transport configuration; the documented default is "inherit". -/
def McpStdioServerConfig.stderrMode (c : McpStdioServerConfig) : StderrHandling :=
  c.stderr.getD StderrHandling.inherit

/-- Modelled from the spec: the error taxonomy — `ConnectionError`,
`ProtocolVersionError`, `MissingCapabilityError`, `ProtocolError`,
`CallToolError`, and the catch-all `MCPClientError` wrapping
construction-time failures. -/
inductive MCPError where
  | connectionError
  | protocolVersionError (version : String)
  | missingCapabilityError (capability : String)
  | protocolError (message : String)
  | callToolError (reason : String)
  | clientError (inner : MCPError)
deriving DecidableEq, Repr

/-- Modelled from the spec: the session's request-correlation state — the
next fresh request id (ids are unique per session, monotonically assigned)
and the list of in-flight request ids awaiting a response, together with
whether the transport is still open. -/
structure Session where
  nextId : Nat
  pending : List Nat
  isOpen : Bool
deriving DecidableEq, Repr

/-- Modelled from the spec: the session state created by a successful
handshake — no request issued yet, transport open. -/
def Session.initial : Session :=
  { nextId := 0, pending := [], isOpen := true }

/-- Modelled from the spec: the set of protocol versions this client
implementation supports (the concrete version strings stand in for the
implementation's supported-version list). -/
def supportedVersions : List String :=
  ["2024-11-05", "2024-10-07"]

/-- Modelled from the spec: the observable behaviour of the MCP server a
client connects to — whether the transport can be opened against it, the
protocol version it reports at the handshake, and its declared
capabilities. -/
structure ServerBehavior where
  reachable : Bool
  protocolVersion : String
  capabilities : List String
deriving DecidableEq, Repr

/-- Modelled from the spec: the final state of the transport resource after
an operation — never opened, still open, or opened and then released. -/
inductive TransportStatus where
  | neverOpened
  | stillOpen
  | released
deriving DecidableEq, Repr

/-- Modelled from the spec: the constructed MCP client — configuration,
negotiated protocol version, server-declared capabilities, the correlation
session, whether the handshake completed, closed flag, and a counter of how
many times the underlying transport resource has been released. -/
structure MCPClient where
  config : ClientConfig
  negotiatedVersion : String
  capabilities : List String
  session : Session
  handshakeComplete : Bool
  closed : Bool
  releaseCount : Nat
deriving DecidableEq, Repr

/-- Modelled from the spec: client construction — open the transport, run
the initialize handshake, and return a ready client, or fail with
`MCPClientError` wrapping the underlying failure.  If the transport cannot
be opened the connection failure is wrapped and no resource was acquired;
if the server reports an unsupported protocol version the version failure
is wrapped and the transport is closed before returning.  The second
component reports the final state of the transport resource. -/
def createMCPClient (config : ClientConfig) (server : ServerBehavior) :
    Except MCPError MCPClient × TransportStatus :=
  if server.reachable = false then
    (Except.error (MCPError.clientError MCPError.connectionError),
     TransportStatus.neverOpened)
  else if server.protocolVersion ∈ supportedVersions then
    (Except.ok
      { config := config
        negotiatedVersion := server.protocolVersion
        capabilities := server.capabilities
        session := Session.initial
        handshakeComplete := true
        closed := false
        releaseCount := 0 },
     TransportStatus.stillOpen)
  else
    (Except.error (MCPError.clientError
        (MCPError.protocolVersionError server.protocolVersion)),
     TransportStatus.released)

/-- Modelled from the spec: `close()` — releases the transport resource and
tears the session down; a second call observes the closed flag and does
nothing, so resources are never double-released and the call never fails. -/
def MCPClient.close (c : MCPClient) : MCPClient :=
  if c.closed then c
  else
    { c with
      closed := true
      releaseCount := c.releaseCount + 1
      session := { c.session with isOpen := false, pending := [] } }

/-- Modelled from the spec: structured protocol values — the "JSON-like
structured messages" exchanged over the transport (the exact wire framing
is left open by the documentation, so messages are modelled at the
structured level). -/
inductive JsonValue where
  | null
  | bool (b : Bool)
  | num (n : Int)
  | str (s : String)
  | arr (items : List JsonValue)
  | obj (fields : List (String × JsonValue))

/-- Modelled from the spec: the outcome a pending waiter resolves with —
its own response, or a failure (closure-induced `ConnectionError`, a
protocol error, or a server-reported error). -/
inductive Outcome where
  | response (payload : JsonValue)
  | failure (error : MCPError)

/-- Modelled from the spec: the events the correlation layer of a session
reacts to — a caller issuing a request (which is assigned the next fresh
id), an incoming framed response carrying a request id, and the transport
closing. -/
inductive Event where
  | send
  | recv (id : Nat) (payload : JsonValue)
  | closeTransport

/-- Modelled from the spec: one step of the session's request-correlation
layer.  A send assigns the fresh id `nextId` to a new pending waiter and
bumps the counter; an incoming response is dispatched by id to its waiter
(an id with no waiter goes to the uncaught-error hook and resolves no
waiter); when the transport closes, every pending waiter resolves with
`ConnectionError`.  The second component lists the waiters resolved by the
step, as pairs of request id and outcome. -/
def Session.step (s : Session) (e : Event) : Session × List (Nat × Outcome) :=
  if s.isOpen = false then (s, [])
  else
    match e with
    | Event.send =>
        ({ s with nextId := s.nextId + 1, pending := s.nextId :: s.pending }, [])
    | Event.recv id payload =>
        if id ∈ s.pending then
          ({ s with pending := s.pending.erase id }, [(id, Outcome.response payload)])
        else
          (s, [])
    | Event.closeTransport =>
        ({ s with isOpen := false, pending := [] },
         s.pending.map (fun id => (id, Outcome.failure MCPError.connectionError)))

/-- Modelled from the spec: the session run over a whole sequence of
events, accumulating every waiter resolution in order. -/
def Session.run (s : Session) : List Event → Session × List (Nat × Outcome)
  | [] => (s, [])
  | e :: t =>
      let stepped := s.step e
      let rest := stepped.1.run t
      (rest.1, stepped.2 ++ rest.2)

/-- Modelled from the spec: the structural description of a tool's accepted
arguments — a tagged structural-schema value validated at conversion
time. -/
inductive SchemaType where
  | numberType
  | stringType
  | booleanType
  | objectType
  | arrayType
  | unknownType
deriving DecidableEq, Repr

/-- Modelled from the spec: a structural schema — named fields, each with a
structural type. -/
structure Schema where
  fields : List (String × SchemaType)
deriving DecidableEq, Repr

/-- Modelled from the spec: `ToolDescriptor` — name (unique within a
session) and input schema, as declared by the server in a list-tools
response. -/
structure ToolDescriptor where
  name : String
  inputSchema : Schema
deriving DecidableEq, Repr

/-- Modelled from the spec: conversion of the server's ordered tool list
into a mapping keyed by tool name; duplicate names from a non-conformant
server are rejected with a `ProtocolError`. -/
def toolsToMap (ts : List ToolDescriptor) :
    Except MCPError (List (String × ToolDescriptor)) :=
  if (ts.map ToolDescriptor.name).Nodup then
    Except.ok (ts.map (fun t => (t.name, t)))
  else
    Except.error (MCPError.protocolError "duplicate tool names in tools/list result")

/-- Modelled from the spec: static validation of caller-declared schemas
against the server-declared schemas, performed at conversion time; the
result is `none` when every declared tool exists on the server with the
same schema, and otherwise a descriptive message naming the first
mismatching tool. -/
def schemaMismatch (declared : List (String × Schema)) (ts : List ToolDescriptor) :
    Option String :=
  match declared with
  | [] => none
  | (n, s) :: rest =>
      match ts.find? (fun t => t.name == n) with
      | none => some ("tool not declared by server: " ++ n)
      | some t =>
          if t.inputSchema = s then schemaMismatch rest ts
          else some ("schema mismatch for tool: " ++ n)

/-- Modelled from the spec: `tools(options)` conversion — the server's tool
list is keyed by name (duplicates are a `ProtocolError`); when
`options.schemas` is supplied the caller-declared shapes are checked
against the server's declaration at conversion time and any mismatch fails
fast with a descriptive error, before any invocation; when omitted, the
schemas of the result are inferred purely from the server's declaration
with no static check. -/
def toolsWithOptions (schemas : Option (List (String × Schema)))
    (ts : List ToolDescriptor) : Except MCPError (List (String × Schema)) :=
  match toolsToMap ts with
  | Except.error e => Except.error e
  | Except.ok m =>
      match schemas with
      | none => Except.ok (m.map (fun p => (p.1, p.2.inputSchema)))
      | some declared =>
          match schemaMismatch declared ts with
          | some msg => Except.error (MCPError.clientError (MCPError.protocolError msg))
          | none => Except.ok declared

/-- Modelled from the spec: `tools()` on a constructed client — fails with
`ConnectionError` after `close()`, fails with a wrapped
`MissingCapabilityError` when the server did not declare the tools
capability, and otherwise converts the server's declared tool list into a
mapping keyed by tool name. -/
def MCPClient.tools (c : MCPClient) (ts : List ToolDescriptor) :
    Except MCPError (List (String × ToolDescriptor)) :=
  if c.closed then Except.error MCPError.connectionError
  else if "tools" ∈ c.capabilities then toolsToMap ts
  else Except.error (MCPError.clientError (MCPError.missingCapabilityError "tools"))

/-- Modelled from the spec: lookup of a field in a structured object
value. -/
def objLookup : List (String × JsonValue) → String → Option JsonValue
  | [], _ => none
  | (k, v) :: rest, key => if k = key then some v else objLookup rest key

/-- Modelled from the spec: a framed protocol request — request id, method
name, structured parameters. -/
structure JRpcRequest where
  id : Nat
  method : String
  params : JsonValue

/-- Modelled from the spec: a framed protocol response — the id of the
request it answers and either a structured result or a server-reported
failure reason. -/
structure JRpcResponse where
  id : Nat
  outcome : Except String JsonValue

/-- Modelled from the spec: serialization of a tool invocation into the
parameters of a call-tool request. -/
def mkCallToolParams (toolName : String) (args : JsonValue) : JsonValue :=
  JsonValue.obj [("name", JsonValue.str toolName), ("arguments", args)]

/-- Modelled from the spec: invocation of a converted tool — serializes the
arguments, issues a call-tool request through the session, and either
returns the structured result of the response correlated to this request's
id or fails with `CallToolError` carrying the server-reported reason. -/
def callTool (server : JRpcRequest → JRpcResponse) (id : Nat)
    (toolName : String) (args : JsonValue) : Except MCPError JsonValue :=
  let resp := server { id := id, method := "tools/call",
                       params := mkCallToolParams toolName args }
  if resp.id = id then
    match resp.outcome with
    | Except.ok v => Except.ok v
    | Except.error reason => Except.error (MCPError.callToolError reason)
  else
    Except.error (MCPError.protocolError "response id does not match request id")

/-- Modelled from the spec: a conformant mock server that echoes the
arguments of a call-tool request back as the result. -/
def echoServer (req : JRpcRequest) : JRpcResponse :=
  match req.params with
  | JsonValue.obj fields =>
      { id := req.id
        outcome :=
          match objLookup fields "arguments" with
          | some a => Except.ok a
          | none => Except.error "missing arguments" }
  | _ => { id := req.id, outcome := Except.error "invalid params" }

/-- Modelled from the spec: the correlation invariant of a session run —
every request id below `nextId` is accounted for exactly once, either
already resolved in the log or still pending, ids not yet issued appear
nowhere, and a closed session has no pending waiter left. -/
def SessionInv (s : Session) (log : List (Nat × Outcome)) : Prop :=
  (∀ id, (log.map Prod.fst).count id + s.pending.count id
      = if id < s.nextId then 1 else 0)
  ∧ (s.isOpen = false → s.pending = [])

theorem map_fst_map_pair (l : List Nat) (c : Outcome) :
    (l.map (fun i => (i, c))).map Prod.fst = l := by
  induction l with
  | nil => rfl
  | cons x l ih => simp only [List.map_cons, ih]

theorem Session.step_inv {s : Session} {log : List (Nat × Outcome)} (e : Event)
    (h : SessionInv s log) : SessionInv (s.step e).1 (log ++ (s.step e).2) := by
  obtain ⟨h1, h2⟩ := h
  by_cases hopen : s.isOpen = false
  · refine ⟨?_, ?_⟩
    · intro id
      simp only [Session.step, if_pos hopen, List.append_nil]
      exact h1 id
    · intro _
      simp only [Session.step, if_pos hopen]
      exact h2 hopen
  · cases e with
    | send =>
        refine ⟨?_, ?_⟩
        · intro id
          simp only [Session.step, if_neg hopen, List.append_nil,
            List.count_cons, beq_iff_eq]
          have h := h1 id
          by_cases hid : s.nextId = id
          · subst hid
            rw [if_neg (Nat.lt_irrefl _)] at h
            rw [if_pos rfl, if_pos (Nat.lt_succ_self _)]
            omega
          · rw [if_neg hid]
            rcases Nat.lt_or_ge id s.nextId with hlt | hge
            · rw [if_pos hlt] at h
              rw [if_pos (Nat.lt_succ_of_lt hlt)]
              omega
            · rw [if_neg (Nat.not_lt.mpr hge)] at h
              have hnot : ¬ id < s.nextId + 1 := by omega
              rw [if_neg hnot]
              omega
        · intro hfalse
          simp only [Session.step, if_neg hopen] at hfalse
          exact absurd hfalse hopen
    | recv rid payload =>
        by_cases hm : rid ∈ s.pending
        · refine ⟨?_, ?_⟩
          · intro id
            simp only [Session.step, if_neg hopen, if_pos hm, List.map_append,
              List.count_append, List.map_cons, List.map_nil, List.count_cons,
              List.count_nil, List.count_erase, beq_iff_eq]
            have h := h1 id
            have hpos : 0 < s.pending.count rid := List.count_pos_iff.mpr hm
            by_cases hid : rid = id
            · subst hid
              rw [if_pos rfl]
              rcases Nat.lt_or_ge rid s.nextId with hlt | hge
              · rw [if_pos hlt] at h ⊢
                omega
              · rw [if_neg (Nat.not_lt.mpr hge)] at h
                omega
            · rw [if_neg hid]
              rcases Nat.lt_or_ge id s.nextId with hlt | hge
              · rw [if_pos hlt] at h ⊢
                omega
              · rw [if_neg (Nat.not_lt.mpr hge)] at h ⊢
                omega
          · intro hfalse
            simp only [Session.step, if_neg hopen, if_pos hm] at hfalse
            exact absurd hfalse hopen
        · refine ⟨?_, ?_⟩
          · intro id
            simp only [Session.step, if_neg hopen, if_neg hm, List.append_nil]
            exact h1 id
          · intro hfalse
            simp only [Session.step, if_neg hopen, if_neg hm] at hfalse
            exact absurd hfalse hopen
    | closeTransport =>
        refine ⟨?_, ?_⟩
        · intro id
          simp only [Session.step, if_neg hopen, List.map_append,
            List.count_append, map_fst_map_pair, List.count_nil]
          have h := h1 id
          omega
        · intro _
          simp only [Session.step, if_neg hopen]

theorem Session.run_inv (t : List Event) {s : Session} {log : List (Nat × Outcome)}
    (h : SessionInv s log) : SessionInv (s.run t).1 (log ++ (s.run t).2) := by
  induction t generalizing s log with
  | nil => simpa [Session.run] using h
  | cons e t ih =>
      have h' := Session.step_inv e h
      have h'' := ih h'
      simpa [Session.run, List.append_assoc] using h''

theorem sessionInv_initial : SessionInv Session.initial [] := by
  refine ⟨?_, ?_⟩
  · intro id
    simp [Session.initial]
  · intro h
    simp [Session.initial] at h

theorem MCPClient.close_close (c : MCPClient) :
    c.close.close = c.close := by
  by_cases h : c.closed
  · simp [MCPClient.close, h]
  · simp [MCPClient.close, h]

/-- Claim C1: for every `ClientConfig`, client construction either returns a
fully initialized client (transport opened and handshake completed) or
fails with an `MCPClientError` that wraps the underlying connection or
protocol-version failure; construction never returns a half-initialized
client. -/
theorem mcp_c1_construction_all_or_nothing (config : ClientConfig)
    (server : ServerBehavior) :
    (∃ c, (createMCPClient config server).1 = Except.ok c
        ∧ c.handshakeComplete = true ∧ c.session.isOpen = true
        ∧ c.closed = false
        ∧ (createMCPClient config server).2 = TransportStatus.stillOpen)
    ∨ (∃ e, (createMCPClient config server).1
          = Except.error (MCPError.clientError e)
        ∧ (e = MCPError.connectionError
            ∨ ∃ v, e = MCPError.protocolVersionError v)) := by
  by_cases h1 : server.reachable = false
  · right
    refine ⟨MCPError.connectionError, ?_, Or.inl rfl⟩
    simp [createMCPClient, h1]
  · by_cases h2 : server.protocolVersion ∈ supportedVersions
    · left
      refine ⟨{ config := config,
                negotiatedVersion := server.protocolVersion,
                capabilities := server.capabilities,
                session := Session.initial,
                handshakeComplete := true,
                closed := false,
                releaseCount := 0 },
        ?_, rfl, rfl, rfl, ?_⟩ <;> simp [createMCPClient, h1, h2]
    · right
      refine ⟨MCPError.protocolVersionError server.protocolVersion, ?_,
        Or.inr ⟨_, rfl⟩⟩
      simp [createMCPClient, h1, h2]

/-- Claim C2: `close()` is idempotent — calling it any number of times
(including before any other operation) is the same as calling it once,
never fails (it is a total operation on the client state), and never
releases the underlying transport resource more than once. -/
theorem mcp_c2_close_idempotent (c : MCPClient) (n : Nat) :
    MCPClient.close^[n + 1] c = MCPClient.close c
    ∧ (MCPClient.close^[n + 1] c).releaseCount ≤ c.releaseCount + 1
    ∧ (MCPClient.close^[n + 1] c).closed = true := by
  have hiter : MCPClient.close^[n + 1] c = MCPClient.close c := by
    induction n with
    | zero => simp
    | succ m ih =>
        rw [Function.iterate_succ_apply', ih, MCPClient.close_close]
  refine ⟨hiter, ?_, ?_⟩
  · rw [hiter]
    by_cases h : c.closed
    · simp [MCPClient.close, h]
    · simp [MCPClient.close, h]
  · rw [hiter]
    by_cases h : c.closed
    · simp [MCPClient.close, h]
    · simp [MCPClient.close, h]

/-- Claim C3: when the server reports a protocol version the client does
not support, construction fails with a wrapped `ProtocolVersionError` and
the transport resource ends released (opened and then closed — no leaked
process or connection). -/
theorem mcp_c3_unsupported_version (config : ClientConfig)
    (server : ServerBehavior) (hreach : server.reachable = true)
    (hver : server.protocolVersion ∉ supportedVersions) :
    createMCPClient config server
      = (Except.error (MCPError.clientError
          (MCPError.protocolVersionError server.protocolVersion)),
         TransportStatus.released) := by
  simp [createMCPClient, hreach, hver]

/-- Modelled from the spec: a sample stdio client configuration used to
instantiate the construction theorems. -/
def sampleConfig : ClientConfig :=
  { transport := TransportConfig.stdio { command := "echo-server" } }

/-- Modelled from the spec: a reachable server that reports a protocol
version this implementation does not support. -/
def badVersionServer : ServerBehavior :=
  { reachable := true, protocolVersion := "1999-01-01", capabilities := [] }

theorem mcp_c3_witness :
    createMCPClient sampleConfig badVersionServer
      = (Except.error (MCPError.clientError
          (MCPError.protocolVersionError "1999-01-01")),
         TransportStatus.released) :=
  mcp_c3_unsupported_version sampleConfig badVersionServer rfl (by decide)

/-- Claim C10: in a stdio transport configuration where the optional
stderr field is omitted, the effective stderr handling defaults to
inheriting the parent's stderr. -/
theorem mcp_c10_stderr_default (c : McpStdioServerConfig)
    (h : c.stderr = none) :
    c.stderrMode = StderrHandling.inherit := by
  simp [McpStdioServerConfig.stderrMode, h]

theorem mcp_c10_witness :
    McpStdioServerConfig.stderrMode { command := "echo-server" }
      = StderrHandling.inherit :=
  mcp_c10_stderr_default { command := "echo-server" } rfl

/-- Claim C6: `tools()` on an open client with the tools capability returns
a mapping keyed by tool name, with names unique within one result; if the
server declares two tools with identical names, `tools()` fails with
`ProtocolError`. -/
theorem mcp_c6_tools_mapping (c : MCPClient) (ts : List ToolDescriptor)
    (hopen : c.closed = false) (hcap : "tools" ∈ c.capabilities) :
    ((ts.map ToolDescriptor.name).Nodup →
      ∃ m, c.tools ts = Except.ok m
        ∧ m.map Prod.fst = ts.map ToolDescriptor.name
        ∧ (m.map Prod.fst).Nodup)
    ∧ (¬ (ts.map ToolDescriptor.name).Nodup →
      c.tools ts = Except.error
        (MCPError.protocolError "duplicate tool names in tools/list result")) := by
  constructor
  · intro hnodup
    refine ⟨ts.map (fun t => (t.name, t)), ?_, ?_, ?_⟩
    · simp [MCPClient.tools, hopen, hcap, toolsToMap, hnodup]
    · simp [List.map_map]
    · simpa [List.map_map] using hnodup
  · intro hdup
    simp [MCPClient.tools, hopen, hcap, toolsToMap, hdup]

/-- Modelled from the spec: a sample server-declared tool list (the "add"
tool of the spec's test scenario). -/
def sampleTools : List ToolDescriptor :=
  [{ name := "add",
     inputSchema := { fields := [("a", SchemaType.numberType),
                                 ("b", SchemaType.numberType)] } }]

/-- Modelled from the spec: a sample constructed client whose server
declared the tools capability. -/
def sampleClient : MCPClient :=
  { config := sampleConfig
    negotiatedVersion := "2024-11-05"
    capabilities := ["tools"]
    session := Session.initial
    handshakeComplete := true
    closed := false
    releaseCount := 0 }

theorem mcp_c6_witness :
    ∃ m, sampleClient.tools sampleTools = Except.ok m
      ∧ m.map Prod.fst = sampleTools.map ToolDescriptor.name
      ∧ (m.map Prod.fst).Nodup :=
  (mcp_c6_tools_mapping sampleClient sampleTools rfl (by decide)).1 (by decide)

/-- Claim C7: round-trip — invoking a converted tool against a server that
echoes its arguments back as the result returns exactly the argument value
to the caller: serialization into a call-tool request followed by
extraction of the correlated response's result is the identity on tool
arguments. -/
theorem mcp_c7_echo_roundtrip (id : Nat) (toolName : String)
    (args : JsonValue) :
    callTool echoServer id toolName args = Except.ok args := by
  have h : echoServer { id := id,
                        method := "tools/call",
                        params := mkCallToolParams toolName args }
      = { id := id, outcome := Except.ok args } := rfl
  simp [callTool, h]

/-- Claim C8: if `options.schemas` is supplied, the converter validates the
caller-declared schemas against the server-declared schemas at conversion
time and fails with a descriptive error on any mismatch; if omitted, the
schemas of the result are inferred purely from the server's declaration
and no such static check is performed. -/
theorem mcp_c8_schema_option (declared : List (String × Schema))
    (ts : List ToolDescriptor)
    (hnodup : (ts.map ToolDescriptor.name).Nodup) :
    ((∃ msg, schemaMismatch declared ts = some msg) →
      ∃ msg, toolsWithOptions (some declared) ts
          = Except.error (MCPError.clientError (MCPError.protocolError msg)))
    ∧ (schemaMismatch declared ts = none →
      toolsWithOptions (some declared) ts = Except.ok declared)
    ∧ toolsWithOptions none ts
        = Except.ok (ts.map (fun t => (t.name, t.inputSchema))) := by
  refine ⟨?_, ?_, ?_⟩
  · rintro ⟨msg, hm⟩
    exact ⟨msg, by simp [toolsWithOptions, toolsToMap, hnodup, hm]⟩
  · intro hm
    simp [toolsWithOptions, toolsToMap, hnodup, hm]
  · simp [toolsWithOptions, toolsToMap, hnodup, List.map_map]

/-- Modelled from the spec: a caller-declared schema set whose shape for
the "add" tool disagrees with the server's declaration. -/
def mismatchedSchemas : List (String × Schema) :=
  [("add", { fields := [("a", SchemaType.stringType)] })]

theorem mcp_c8_witness :
    ∃ msg, toolsWithOptions (some mismatchedSchemas) sampleTools
        = Except.error (MCPError.clientError (MCPError.protocolError msg)) :=
  (mcp_c8_schema_option mismatchedSchemas sampleTools (by decide)).1
    ⟨"schema mismatch for tool: add", by decide⟩

/-- Claim C4: if the transport closes while N requests are pending, the
close step resolves every one of the N pending waiters with
`ConnectionError` — the resolution list covers each pending id, has
exactly N entries, and no pending request remains afterwards (none hang). -/
theorem mcp_c4_close_resolves_all_pending (s : Session)
    (hopen : s.isOpen = true) :
    (s.step Event.closeTransport).2
      = s.pending.map (fun id => (id, Outcome.failure MCPError.connectionError))
    ∧ (s.step Event.closeTransport).2.length = s.pending.length
    ∧ (∀ id ∈ s.pending,
        (id, Outcome.failure MCPError.connectionError)
          ∈ (s.step Event.closeTransport).2)
    ∧ (s.step Event.closeTransport).1.pending = [] := by
  have hnot : ¬ s.isOpen = false := by simp [hopen]
  refine ⟨?_, ?_, ?_, ?_⟩
  · simp [Session.step, hnot]
  · simp [Session.step, hnot]
  · intro id hid
    simp only [Session.step, if_neg hnot]
    exact List.mem_map.mpr ⟨id, hid, rfl⟩
  · simp [Session.step, hnot]

/-- Modelled from the spec: a sample session with three requests in
flight. -/
def sampleSession : Session :=
  { nextId := 5, pending := [0, 2, 4], isOpen := true }

theorem mcp_c4_witness :
    (sampleSession.step Event.closeTransport).2
      = [(0, Outcome.failure MCPError.connectionError),
         (2, Outcome.failure MCPError.connectionError),
         (4, Outcome.failure MCPError.connectionError)]
    ∧ (sampleSession.step Event.closeTransport).1.pending = [] :=
  ⟨((mcp_c4_close_resolves_all_pending sampleSession rfl).1).trans rfl,
   (mcp_c4_close_resolves_all_pending sampleSession rfl).2.2.2⟩

/-- Claim C5: in any run of a session from its initial state that ends with
the session closed, every request id issued during the run resolves to
exactly one outcome in the resolution log (and ids never issued resolve to
none); moreover at every point of the run the pending-waiter list maps
each id to at most a single waiter and the next id to be assigned is fresh
(not already pending). -/
theorem mcp_c5_fresh_ids_single_resolution (t : List Event) (sf : Session)
    (log : List (Nat × Outcome))
    (hrun : Session.initial.run t = (sf, log))
    (hclosed : sf.isOpen = false) :
    (∀ id, (log.map Prod.fst).count id = if id < sf.nextId then 1 else 0)
    ∧ (∀ p q : List Event, t = p ++ q →
        (Session.initial.run p).1.pending.Nodup
        ∧ (Session.initial.run p).1.nextId ∉ (Session.initial.run p).1.pending) := by
  have hinv : SessionInv sf log := by
    have h := Session.run_inv t sessionInv_initial
    rw [hrun] at h
    exact h
  obtain ⟨h1, h2⟩ := hinv
  constructor
  · intro id
    have hp := h2 hclosed
    have h := h1 id
    rw [hp] at h
    simpa using h
  · intro p q _
    have hinvp : SessionInv (Session.initial.run p).1 (Session.initial.run p).2 :=
      Session.run_inv p sessionInv_initial
    obtain ⟨hp1, _⟩ := hinvp
    constructor
    · rw [List.nodup_iff_count_le_one]
      intro a
      have h := hp1 a
      by_cases hlt : a < (Session.initial.run p).1.nextId
      · rw [if_pos hlt] at h
        omega
      · rw [if_neg hlt] at h
        omega
    · have h := hp1 (Session.initial.run p).1.nextId
      rw [if_neg (Nat.lt_irrefl _)] at h
      have hzero :
          (Session.initial.run p).1.pending.count
            (Session.initial.run p).1.nextId = 0 := by
        omega
      exact List.count_eq_zero.mp hzero

/-- Modelled from the spec: a sample event trace — two requests issued, one
answered, then the transport closes. -/
def sampleTrace : List Event :=
  [Event.send, Event.send, Event.recv 0 (JsonValue.str "a"),
   Event.closeTransport]

theorem mcp_c5_witness :
    (([((0 : Nat), Outcome.response (JsonValue.str "a")),
       ((1 : Nat), Outcome.failure MCPError.connectionError)].map
        Prod.fst).count 1)
      = if 1 < 2 then 1 else 0 :=
  (mcp_c5_fresh_ids_single_resolution sampleTrace
      { nextId := 2, pending := [], isOpen := false }
      [(0, Outcome.response (JsonValue.str "a")),
       (1, Outcome.failure MCPError.connectionError)] rfl rfl).1 1

/-- Claim C9: in any interleaved run, a waiter for request id resolves with
a response payload only if the transport actually delivered that payload
as the response carrying that very id — each caller receives the response
correlated to its own request id and never another caller's. -/
theorem mcp_c9_response_correlation (t : List Event) (s : Session) (id : Nat)
    (p : JsonValue) (hmem : (id, Outcome.response p) ∈ (s.run t).2) :
    Event.recv id p ∈ t := by
  induction t generalizing s with
  | nil => simp [Session.run] at hmem
  | cons e t ih =>
      simp only [Session.run] at hmem
      rcases List.mem_append.mp hmem with hout | hrest
      · by_cases hopen : s.isOpen = false
        · simp [Session.step, hopen] at hout
        · cases e with
          | send => simp [Session.step, hopen] at hout
          | recv rid payload =>
              by_cases hm : rid ∈ s.pending
              · simp only [Session.step, if_neg hopen, if_pos hm,
                  List.mem_singleton, Prod.mk.injEq] at hout
                obtain ⟨hid, hpayload⟩ := hout
                subst hid
                cases hpayload
                exact List.mem_cons_self _ _
              · simp [Session.step, hopen, hm] at hout
          | closeTransport =>
              simp [Session.step, hopen] at hout
      · exact List.mem_cons_of_mem _ (ih _ hrest)

theorem mcp_c9_witness :
    Event.recv 0 (JsonValue.str "pong")
      ∈ [Event.send, Event.recv 0 (JsonValue.str "pong"),
         Event.closeTransport] := by
  have h : ((0 : Nat), Outcome.response (JsonValue.str "pong"))
      ∈ (Session.initial.run [Event.send,
          Event.recv 0 (JsonValue.str "pong"), Event.closeTransport]).2 := by
    show ((0 : Nat), Outcome.response (JsonValue.str "pong"))
        ∈ [((0 : Nat), Outcome.response (JsonValue.str "pong"))]
    exact List.Mem.head _
  exact mcp_c9_response_correlation _ Session.initial 0 (JsonValue.str "pong") h
